import Mathlib

/-!
Shallow embedding of the telemetry playback / geofencing core of the
autocross telemetry frontend, together with theorems settling the spec
claims.  All machine floating-point arithmetic of the source is modelled
over `ℚ`; transcendental inputs (the cosine/sine of a gate or marker
rotation) are carried as explicit rational parameters, since `ℚ` has no
trigonometric functions.  The sources embedded here are
`src/frontend/src/hooks/index.ts` (interpolation, playback clock),
`src/frontend/src/hooks/course.ts` (geofencing state machine) and
`src/frontend/src/App.tsx` (gate-crossing solver).
-/

namespace Telemetry

/-- 2-D point in the local planar frame (`Point` of `types/course.ts`). -/
structure Pt where
  x : ℚ
  y : ℚ
deriving DecidableEq, Repr

instance : Inhabited Pt := ⟨⟨0, 0⟩⟩

/-! ## Sample interpolation (`hooks/index.ts`) -/

/-- Result record of the interpolation helpers: `{ value, valid }`. -/
structure InterpResult where
  value : ℚ
  valid : Bool
deriving DecidableEq, Repr

/-- `interpolateValue` of `hooks/index.ts` (lines 452-472).  The optional
TS `valid0`/`valid1` arguments become `Option Bool`; an absent argument
defaults to `true`, as in `valid0 !== undefined ? valid0 : true`. -/
def interpolateValue (v0 v1 t : ℚ) (valid0 valid1 : Option Bool) : InterpResult :=
  let v0Valid := valid0.getD true
  let v1Valid := valid1.getD true
  if !v0Valid && !v1Valid then ⟨0, false⟩
  else if v0Valid && v1Valid then ⟨v0 + (v1 - v0) * t, true⟩
  else if v1Valid then ⟨v1, true⟩
  else ⟨v0, true⟩

/-- `interpolateAngle` of `hooks/index.ts` (lines 474-504): circular
interpolation with the two sequential wrap corrections on the difference
and the two sequential renormalization corrections on the result. -/
def interpolateAngle (a0 a1 t : ℚ) (valid0 valid1 : Option Bool) : InterpResult :=
  let a0Valid := valid0.getD true
  let a1Valid := valid1.getD true
  if !a0Valid && !a1Valid then ⟨0, false⟩
  else if !a0Valid then ⟨a1, true⟩
  else if !a1Valid then ⟨a0, true⟩
  else
    let diff := a1 - a0
    let diff := if diff > 180 then diff - 360 else diff
    let diff := if diff < -180 then diff + 360 else diff
    let result := a0 + diff * t
    let result := if result < 0 then result + 360 else result
    let result := if result ≥ 360 then result - 360 else result
    ⟨result, true⟩

/-- Modelled from the spec: the signed shortest angular difference from
`a0` to `a1`, wrapped to the half-open interval `[-180, 180)` — the
unique representative of `a1 - a0` modulo 360 lying in `[-180, 180)`. -/
def specShortestDiff (a0 a1 : ℚ) : ℚ :=
  (a1 - a0) - 360 * ((⌊((a1 - a0) + 180) / 360⌋ : ℤ) : ℚ)

/-- Modelled from the spec: renormalization of an angle into `[0, 360)`. -/
def specNormalize (x : ℚ) : ℚ :=
  x - 360 * ((⌊x / 360⌋ : ℤ) : ℚ)

/-- Modelled from the spec: circular interpolation as the spec words it —
blend along the shortest difference wrapped to `[-180, 180)`, then
renormalize into `[0, 360)`. -/
def specCircularInterp (a0 a1 t : ℚ) : ℚ :=
  specNormalize (a0 + specShortestDiff a0 a1 * t)

/-- Per-field validity map of a `PlaybackSample` (`valid: Record<string,
boolean>`): each telemetry field's flag is either present (`some b`) or
absent (`none`).  The empty record `{}` has every entry absent. -/
structure ValidMap where
  x : Option Bool
  y : Option Bool
  speed : Option Bool
  heading : Option Bool
  ax : Option Bool
  ay : Option Bool
  yaw_rate : Option Bool
  total_g : Option Bool
deriving DecidableEq, Repr

/-- The empty validity record `{}`. -/
def ValidMap.empty : ValidMap := ⟨none, none, none, none, none, none, none, none⟩

/-- `PlaybackSample` of `types/index.ts`. -/
structure PlaybackSample where
  time : ℚ
  x : ℚ
  y : ℚ
  speed : ℚ
  heading : ℚ
  ax : ℚ
  ay : ℚ
  yaw_rate : ℚ
  total_g : ℚ
  valid : ValidMap
deriving DecidableEq, Repr

instance : Inhabited PlaybackSample := ⟨⟨0, 0, 0, 0, 0, 0, 0, 0, 0, ValidMap.empty⟩⟩

/-- Bracketing condition of the `for` loop in `getSampleAtTime`:
`samples[i].time <= time && samples[i + 1].time >= time`. -/
def bracketCond (samples : List PlaybackSample) (time : ℚ) (i : Nat) : Bool :=
  decide ((samples.getD i default).time ≤ time) &&
    decide (time ≤ (samples.getD (i + 1) default).time)

/-- First index in the given index list satisfying `p` (the `break` of the
bracketing `for` loop). -/
def findFirstIdx (p : Nat → Bool) : List Nat → Option Nat
  | [] => none
  | i :: is => if p i then some i else findFirstIdx p is

/-- `getSampleAtTime` of `hooks/index.ts` (lines 171-267): empty-sequence
zero sample, bracketing-sample search with defaults `(0, length - 1)`,
boundary clamping, then per-field interpolation. -/
def getSampleAtTime (samples : List PlaybackSample) (time : ℚ) : PlaybackSample :=
  if samples.length = 0 then
    { time := time, x := 0, y := 0, speed := 0, heading := 0,
      ax := 0, ay := 0, yaw_rate := 0, total_g := 0, valid := ValidMap.empty }
  else
    let found := findFirstIdx (bracketCond samples time) (List.range (samples.length - 1))
    let i0 := match found with | some i => i | none => 0
    let i1 := match found with | some i => i + 1 | none => samples.length - 1
    let s0 := samples.getD i0 default
    let s1 := samples.getD i1 default
    if time ≤ s0.time then s0
    else if time ≥ s1.time then s1
    else
      let t := (time - s0.time) / (s1.time - s0.time)
      let xr := interpolateValue s0.x s1.x t s0.valid.x s1.valid.x
      let yr := interpolateValue s0.y s1.y t s0.valid.y s1.valid.y
      let speedr := interpolateValue s0.speed s1.speed t s0.valid.speed s1.valid.speed
      let axr := interpolateValue s0.ax s1.ax t s0.valid.ax s1.valid.ax
      let ayr := interpolateValue s0.ay s1.ay t s0.valid.ay s1.valid.ay
      let yawr := interpolateValue s0.yaw_rate s1.yaw_rate t s0.valid.yaw_rate s1.valid.yaw_rate
      let totalr := interpolateValue s0.total_g s1.total_g t s0.valid.total_g s1.valid.total_g
      let headingr := interpolateAngle s0.heading s1.heading t s0.valid.heading s1.valid.heading
      { time := time,
        x := xr.value, y := yr.value, speed := speedr.value, heading := headingr.value,
        ax := axr.value, ay := ayr.value, yaw_rate := yawr.value, total_g := totalr.value,
        valid := ⟨some xr.valid, some yr.valid, some speedr.valid, some headingr.valid,
                  some axr.valid, some ayr.valid, some yawr.valid, some totalr.valid⟩ }

/-! ## Playback clock (`hooks/index.ts`, `usePlayback`) -/

/-- `PlaybackState` of `types/index.ts`. -/
structure PlaybackState where
  isPlaying : Bool
  currentTime : ℚ
  playbackSpeed : ℚ
  looping : Bool
deriving DecidableEq, Repr

/-- Truncation toward zero, as the JavaScript `%` operator truncates. -/
def ratTrunc (q : ℚ) : ℤ := if q < 0 then -⌊-q⌋ else ⌊q⌋

/-- The JavaScript remainder `x % d` on rationals (`d ≠ 0`):
`x - d * trunc(x / d)`. -/
def jsMod (x d : ℚ) : ℚ := x - d * ((ratTrunc (x / d) : ℤ) : ℚ)

/-- The per-frame `animate` tick of `usePlayback` (`hooks/index.ts`,
lines 294-343): the `deltaMs <= 0` skip, the `!prev.isPlaying` guard and
the functional `setState` updater with its end-of-run boundary policy.
`speed`, `looping` and `duration` are the values read from the refs
(`playbackSpeedRef`, `loopingRef`, `maxDurationRef`). -/
def animate (deltaMs speed : ℚ) (looping : Bool) (duration : ℚ)
    (prev : PlaybackState) : PlaybackState :=
  if deltaMs ≤ 0 then prev
  else if !prev.isPlaying then prev
  else
    let deltaS := (deltaMs / 1000) * speed
    let newTime := prev.currentTime + deltaS
    if newTime ≥ duration then
      if looping then { prev with currentTime := jsMod newTime duration }
      else { prev with isPlaying := false, currentTime := duration }
    else { prev with currentTime := newTime }

/-! ## Geofencing state machine (`hooks/course.ts`, `useGeofencing`) -/

/-- `SectorPolygon` of `types/course.ts` (vertex ring). -/
structure SectorPolygon where
  vertices : List Pt
deriving DecidableEq, Repr

/-- `SectorGate` of `types/course.ts`.  The gate's rotation enters the
geometry only through `cos(rotation·π/180)` and `sin(rotation·π/180)`,
which are carried here as the rational parameters `cosRot`/`sinRot`
(`ℚ` has no trigonometric functions; rotation 0 is `cosRot = 1,
sinRot = 0`). -/
structure SectorGate where
  position : Pt
  width : ℚ
  cosRot : ℚ
  sinRot : ℚ
deriving DecidableEq, Repr

/-- `CourseSector` of `types/course.ts` (the fields the geofencing core
reads). -/
structure CourseSector where
  id : String
  name : String
  polygon : Option SectorPolygon
  entryGate : Option SectorGate
  exitGate : Option SectorGate
  timingEnabled : Bool
  targetTime : Option ℚ
deriving DecidableEq, Repr

/-- `GeofenceEvent.eventType`. -/
inductive EvType where
  | enter
  | exit
deriving DecidableEq, Repr

/-- `GeofenceEvent` of `types/course.ts`. -/
structure GeofenceEvent where
  sectorId : String
  eventType : EvType
  timestamp : ℚ
  position : Pt
deriving DecidableEq, Repr

/-- `SectorTime` of `types/course.ts`. -/
structure SectorTime where
  sectorId : String
  sectorName : String
  entryTime : ℚ
  exitTime : ℚ
  duration : ℚ
  deltaFromTarget : Option ℚ
deriving DecidableEq, Repr

/-- The mutable state of `useGeofencing`: the React state cells
(`activeSectorId`, `sectorTimes`, `events`) and the refs
(`entryTimeRef`, `previousPositionRef`, `startTimeRef`). -/
structure GeoState where
  activeSectorId : Option String
  sectorTimes : List SectorTime
  events : List GeofenceEvent
  entryTime : Option ℚ
  previousPosition : Option Pt
  startTime : Option ℚ
deriving DecidableEq, Repr

/-- The state produced by `reset` (`hooks/course.ts`, lines 422-429),
which is also the initial state. -/
def resetState : GeoState :=
  { activeSectorId := none, sectorTimes := [], events := [],
    entryTime := none, previousPosition := none, startTime := none }

/-- `isPointInPolygon` of `hooks/course.ts` (lines 282-298): ray casting
over the vertex ring, `j` being the predecessor index of `i` (starting
at `length - 1`). -/
def isPointInPolygon (point : Pt) (polygon : SectorPolygon) : Bool :=
  let vertices := polygon.vertices
  if vertices.length < 3 then false
  else
    (List.range vertices.length).foldl
      (fun inside i =>
        let j := if i = 0 then vertices.length - 1 else i - 1
        let vi := vertices.getD i default
        let vj := vertices.getD j default
        if (decide (vi.y > point.y) != decide (vj.y > point.y)) &&
            decide (point.x < (vj.x - vi.x) * (point.y - vi.y) / (vj.y - vi.y) + vi.x)
        then !inside else inside)
      false

/-- `direction` of `hooks/course.ts` (lines 598-600). -/
def direction (p1 p2 p3 : Pt) : ℚ :=
  (p3.x - p1.x) * (p2.y - p1.y) - (p2.x - p1.x) * (p3.y - p1.y)

/-- `onSegment` of `hooks/course.ts` (lines 602-607). -/
def onSegment (p1 p2 p : Pt) : Bool :=
  decide (min p1.x p2.x ≤ p.x) && decide (p.x ≤ max p1.x p2.x) &&
    decide (min p1.y p2.y ≤ p.y) && decide (p.y ≤ max p1.y p2.y)

/-- `doLineSegmentsIntersect` of `hooks/course.ts` (lines 574-596). -/
def doLineSegmentsIntersect (p1 p2 p3 p4 : Pt) : Bool :=
  let d1 := direction p3 p4 p1
  let d2 := direction p3 p4 p2
  let d3 := direction p1 p2 p3
  let d4 := direction p1 p2 p4
  if ((decide (d1 > 0) && decide (d2 < 0)) || (decide (d1 < 0) && decide (d2 > 0))) &&
      ((decide (d3 > 0) && decide (d4 < 0)) || (decide (d3 < 0) && decide (d4 > 0))) then
    true
  else if decide (d1 = 0) && onSegment p3 p4 p1 then true
  else if decide (d2 = 0) && onSegment p3 p4 p2 then true
  else if decide (d3 = 0) && onSegment p1 p2 p3 then true
  else if decide (d4 = 0) && onSegment p1 p2 p4 then true
  else false

/-- `doesLineCrossGate` of `hooks/course.ts` (lines 301-321).  The gate
segment endpoints use `cos(rad + π/2) = -sinRot` and
`sin(rad + π/2) = cosRot`. -/
def doesLineCrossGate (p1 p2 : Pt) (gate : SectorGate) : Bool :=
  let halfWidth := gate.width / 2
  let g1 : Pt := ⟨gate.position.x + (-gate.sinRot) * halfWidth,
                  gate.position.y + gate.cosRot * halfWidth⟩
  let g2 : Pt := ⟨gate.position.x - (-gate.sinRot) * halfWidth,
                  gate.position.y - gate.cosRot * halfWidth⟩
  doLineSegmentsIntersect p1 p2 g1 g2

/-- `handleSectorEntry` of `hooks/course.ts` (lines 366-377). -/
def handleSectorEntry (st : GeoState) (sectorId : String) (timestamp : ℚ)
    (position : Pt) : GeoState :=
  { st with activeSectorId := some sectorId,
            entryTime := some timestamp,
            events := st.events ++ [⟨sectorId, .enter, timestamp, position⟩] }

/-- `handleSectorExit` of `hooks/course.ts` (lines 380-408).  The
`sector.targetTime ? duration - sector.targetTime : undefined` ternary is
falsy for a target of `0`. -/
def handleSectorExit (sectors : List CourseSector) (st : GeoState)
    (sectorId : String) (timestamp : ℚ) (position : Pt) : GeoState :=
  let sectorOpt := sectors.find? (fun s => s.id == sectorId)
  let st1 :=
    match st.entryTime, sectorOpt with
    | some e, some sector =>
      let duration := timestamp - e
      { st with sectorTimes := st.sectorTimes ++
          [({ sectorId := sectorId, sectorName := sector.name, entryTime := e,
              exitTime := timestamp, duration := duration,
              deltaFromTarget :=
                match sector.targetTime with
                | some tt => if tt = 0 then none else some (duration - tt)
                | none => none } : SectorTime)] }
    | _, _ => st
  { st1 with events := st1.events ++ [⟨sectorId, .exit, timestamp, position⟩],
             activeSectorId := none,
             entryTime := none }

/-- The per-sector body of the `for` loop in `updatePosition`
(`hooks/course.ts`, lines 333-362): polygon check, then entry gate,
then exit gate. -/
def processSector (prevPos : Option Pt) (position : Pt) (timestamp : ℚ)
    (sectors : List CourseSector) (st : GeoState) (sector : CourseSector) : GeoState :=
  if !sector.timingEnabled then st
  else
    let st :=
      match sector.polygon with
      | some poly =>
        let wasInside := match prevPos with
          | some p => isPointInPolygon p poly
          | none => false
        let isInside := isPointInPolygon position poly
        if !wasInside && isInside then handleSectorEntry st sector.id timestamp position
        else if wasInside && !isInside then
          handleSectorExit sectors st sector.id timestamp position
        else st
      | none => st
    let st :=
      match sector.entryGate, prevPos with
      | some gate, some p =>
        if doesLineCrossGate p position gate then
          handleSectorEntry st sector.id timestamp position
        else st
      | _, _ => st
    match sector.exitGate, prevPos with
    | some gate, some p =>
      if doesLineCrossGate p position gate then
        handleSectorExit sectors st sector.id timestamp position
      else st
    | _, _ => st

/-- `updatePosition` of `hooks/course.ts` (lines 324-363): anchor the
start time, capture the previous position, store the new one, then run
every sector's checks against the captured previous position. -/
def updatePosition (sectors : List CourseSector) (st : GeoState)
    (position : Pt) (timestamp : ℚ) : GeoState :=
  let st0 := { st with startTime := match st.startTime with
                | none => some timestamp
                | some s => some s }
  let prevPos := st0.previousPosition
  let st1 := { st0 with previousPosition := some position }
  sectors.foldl (processSector prevPos position timestamp sectors) st1

/-- A whole trace: fold `updatePosition` over a list of
`(position, timestamp)` updates. -/
def runUpdates (sectors : List CourseSector) (updates : List (Pt × ℚ))
    (st : GeoState) : GeoState :=
  updates.foldl (fun s u => updatePosition sectors s u.1 u.2) st

/-- The event log restricted to one sector id. -/
def sectorLog (sid : String) (evts : List GeofenceEvent) : List GeofenceEvent :=
  evts.filter (fun e => e.sectorId == sid)

/-- The events that the polygon check of `updatePosition` emits for one
sector on one position update: enter on was-outside ∧ is-inside, exit on
was-inside ∧ is-outside, nothing otherwise; with no previous position
the previous classification defaults to outside. -/
def polyEvents (T : CourseSector) (prev : Option Pt) (pos : Pt) (t : ℚ) :
    List GeofenceEvent :=
  if !T.timingEnabled then []
  else
    match T.polygon with
    | none => []
    | some poly =>
      let wasInside := match prev with
        | some p => isPointInPolygon p poly
        | none => false
      let isInside := isPointInPolygon pos poly
      if !wasInside && isInside then [⟨T.id, .enter, t, pos⟩]
      else if wasInside && !isInside then [⟨T.id, .exit, t, pos⟩]
      else []

/-- Whether the geofencing state regards the last seen position as
inside the sector's polygon (false when there is no previous position,
no polygon, or timing is disabled). -/
def trackedInside (S : CourseSector) (prev : Option Pt) : Bool :=
  S.timingEnabled &&
    match prev, S.polygon with
    | some p, some poly => isPointInPolygon p poly
    | _, _ => false

/-- One step of the strict-alternation automaton over a sector's event
log: the accumulator holds `some true` when the next event must be an
enter, `some false` when it must be an exit, `none` once alternation is
broken. -/
def altStep : Option Bool → EvType → Option Bool
  | none, _ => none
  | some true, .enter => some false
  | some true, .exit => none
  | some false, .exit => some true
  | some false, .enter => none

/-- The alternation automaton run over a whole log, starting from
"an enter is expected first". -/
def altState (l : List GeofenceEvent) : Option Bool :=
  l.foldl (fun acc e => altStep acc e.eventType) (some true)

/-- A log strictly alternates enter, exit, enter, … (first event an
enter, never two equal events in a row, no exit without a pending
enter) iff the automaton never breaks. -/
def logAlternates (l : List GeofenceEvent) : Prop := (altState l).isSome = true

theorem handleSectorEntry_events (st : GeoState) (sid : String) (t : ℚ) (p : Pt) :
    (handleSectorEntry st sid t p).events = st.events ++ [⟨sid, .enter, t, p⟩] := rfl

theorem handleSectorExit_events (sectors : List CourseSector) (st : GeoState)
    (sid : String) (t : ℚ) (p : Pt) :
    (handleSectorExit sectors st sid t p).events = st.events ++ [⟨sid, .exit, t, p⟩] := by
  rcases he : st.entryTime with _ | e <;>
    rcases hf : sectors.find? (fun s => s.id == sid) with _ | sec <;>
      simp [handleSectorExit, he, hf]

theorem handleSectorEntry_prevPos (st : GeoState) (sid : String) (t : ℚ) (p : Pt) :
    (handleSectorEntry st sid t p).previousPosition = st.previousPosition := rfl

theorem handleSectorExit_prevPos (sectors : List CourseSector) (st : GeoState)
    (sid : String) (t : ℚ) (p : Pt) :
    (handleSectorExit sectors st sid t p).previousPosition = st.previousPosition := by
  rcases he : st.entryTime with _ | e <;>
    rcases hf : sectors.find? (fun s => s.id == sid) with _ | sec <;>
      simp [handleSectorExit, he, hf]

theorem processSector_appends (prevPos : Option Pt) (pos : Pt) (t : ℚ)
    (sectors : List CourseSector) (st : GeoState) (T : CourseSector) :
    ∃ delta, (processSector prevPos pos t sectors st T).events = st.events ++ delta ∧
      ∀ e ∈ delta, e.sectorId = T.id := by
  simp only [processSector]
  repeat' split
  all_goals
    try simp only [handleSectorEntry_events, handleSectorExit_events, List.append_assoc]
  all_goals
    first
    | exact ⟨[], (List.append_nil _).symm, by simp⟩
    | exact ⟨_, rfl, by simp⟩

theorem processSector_prevPos (prevPos : Option Pt) (pos : Pt) (t : ℚ)
    (sectors : List CourseSector) (st : GeoState) (T : CourseSector) :
    (processSector prevPos pos t sectors st T).previousPosition = st.previousPosition := by
  simp only [processSector]
  repeat' split
  all_goals
    simp [handleSectorEntry_prevPos, handleSectorExit_prevPos]

theorem processSector_gateless (prevPos : Option Pt) (pos : Pt) (t : ℚ)
    (sectors : List CourseSector) (st : GeoState) {T : CourseSector}
    (hg1 : T.entryGate = none) (hg2 : T.exitGate = none) :
    (processSector prevPos pos t sectors st T).events
      = st.events ++ polyEvents T prevPos pos t := by
  rcases hp : T.polygon with _ | poly
  · cases hTE : T.timingEnabled <;>
      simp [processSector, polyEvents, hg1, hg2, hp, hTE]
  · rcases hprev : prevPos with _ | p <;>
      cases hTE : T.timingEnabled <;>
        simp only [processSector, polyEvents, hg1, hg2, hp, hprev, hTE] <;>
        split_ifs <;>
          simp [handleSectorEntry_events, handleSectorExit_events]

theorem polyEvents_ids (T : CourseSector) (prev : Option Pt) (pos : Pt) (t : ℚ) :
    ∀ e ∈ polyEvents T prev pos t, e.sectorId = T.id := by
  rcases hp : T.polygon with _ | poly <;>
    rcases hprev : prev with _ | p <;>
      cases hTE : T.timingEnabled <;>
        simp only [polyEvents, hp, hprev, hTE] <;>
        try split_ifs <;>
        simp

theorem foldl_log_none (S : CourseSector) (prevPos : Option Pt) (pos : Pt) (t : ℚ)
    (sectors : List CourseSector) :
    ∀ (L : List CourseSector) (st : GeoState),
      L.filter (fun T => T.id == S.id) = [] →
      sectorLog S.id (L.foldl (processSector prevPos pos t sectors) st).events
        = sectorLog S.id st.events := by
  intro L
  induction L with
  | nil => intro st _; rfl
  | cons T rest ih =>
    intro st hfilt
    rw [List.filter_cons] at hfilt
    by_cases hT : (T.id == S.id) = true
    · rw [if_pos hT] at hfilt
      exact absurd hfilt (by simp)
    · rw [if_neg hT] at hfilt
      rw [List.foldl_cons, ih _ hfilt]
      obtain ⟨delta, hev, hids⟩ := processSector_appends prevPos pos t sectors st T
      rw [hev]
      simp only [sectorLog, List.filter_append]
      have hnil : delta.filter (fun e => e.sectorId == S.id) = [] := by
        rw [List.filter_eq_nil_iff]
        intro e he
        rw [hids e he]
        exact hT
      rw [hnil, List.append_nil]

theorem foldl_log_one (S : CourseSector) (prevPos : Option Pt) (pos : Pt) (t : ℚ)
    (sectors : List CourseSector) (hg1 : S.entryGate = none) (hg2 : S.exitGate = none) :
    ∀ (L : List CourseSector) (st : GeoState),
      L.filter (fun T => T.id == S.id) = [S] →
      sectorLog S.id (L.foldl (processSector prevPos pos t sectors) st).events
        = sectorLog S.id st.events ++ polyEvents S prevPos pos t := by
  intro L
  induction L with
  | nil => intro st h; exact absurd h (by simp)
  | cons T rest ih =>
    intro st hfilt
    rw [List.filter_cons] at hfilt
    by_cases hT : (T.id == S.id) = true
    · rw [if_pos hT] at hfilt
      injection hfilt with hTS hrest
      have hST : S = T := hTS.symm
      subst hST
      rw [List.foldl_cons, foldl_log_none S prevPos pos t sectors rest _ hrest,
        processSector_gateless prevPos pos t sectors st hg1 hg2]
      simp only [sectorLog, List.filter_append]
      have hself : (polyEvents S prevPos pos t).filter (fun e => e.sectorId == S.id)
          = polyEvents S prevPos pos t := by
        rw [List.filter_eq_self]
        intro e he
        rw [polyEvents_ids S prevPos pos t e he]
        exact beq_self_eq_true _
      rw [hself]
    · rw [if_neg hT] at hfilt
      rw [List.foldl_cons, ih _ hfilt]
      obtain ⟨delta, hev, hids⟩ := processSector_appends prevPos pos t sectors st T
      rw [hev]
      simp only [sectorLog, List.filter_append]
      have hnil : delta.filter (fun e => e.sectorId == S.id) = [] := by
        rw [List.filter_eq_nil_iff]
        intro e he
        rw [hids e he]
        exact hT
      rw [hnil, List.append_nil]

theorem updatePosition_log (S : CourseSector) (sectors : List CourseSector)
    (hfilt : sectors.filter (fun T => T.id == S.id) = [S])
    (hg1 : S.entryGate = none) (hg2 : S.exitGate = none)
    (st : GeoState) (pos : Pt) (t : ℚ) :
    sectorLog S.id (updatePosition sectors st pos t).events
      = sectorLog S.id st.events ++ polyEvents S st.previousPosition pos t := by
  simp only [updatePosition]
  exact foldl_log_one S st.previousPosition pos t sectors hg1 hg2 sectors _ hfilt

theorem foldl_prevPos (prevPos : Option Pt) (pos : Pt) (t : ℚ)
    (sectors : List CourseSector) :
    ∀ (L : List CourseSector) (st : GeoState),
      (L.foldl (processSector prevPos pos t sectors) st).previousPosition
        = st.previousPosition := by
  intro L
  induction L with
  | nil => intro st; rfl
  | cons T rest ih =>
    intro st
    rw [List.foldl_cons, ih, processSector_prevPos]

theorem updatePosition_prevPos (sectors : List CourseSector) (st : GeoState)
    (pos : Pt) (t : ℚ) :
    (updatePosition sectors st pos t).previousPosition = some pos := by
  simp only [updatePosition]
  rw [foldl_prevPos]

theorem altState_snoc (l : List GeofenceEvent) (e : GeofenceEvent) :
    altState (l ++ [e]) = altStep (altState l) e.eventType := by
  simp [altState, List.foldl_append]

theorem altState_after_update (S : CourseSector) (prev : Option Pt) (pos : Pt)
    (t : ℚ) (l : List GeofenceEvent)
    (hinv : altState l = some (!trackedInside S prev)) :
    altState (l ++ polyEvents S prev pos t) = some (!trackedInside S (some pos)) := by
  cases hTE : S.timingEnabled
  · have h1 : polyEvents S prev pos t = [] := by simp [polyEvents, hTE]
    have h2 : trackedInside S prev = false := by simp [trackedInside, hTE]
    have h3 : trackedInside S (some pos) = false := by simp [trackedInside, hTE]
    rw [h1, List.append_nil, hinv, h2, h3]
  · rcases hp : S.polygon with _ | poly
    · have h1 : polyEvents S prev pos t = [] := by
        rcases prev with _ | p <;> simp [polyEvents, hTE, hp]
      have h2 : trackedInside S prev = false := by
        rcases prev with _ | p <;> simp [trackedInside, hTE, hp]
      have h3 : trackedInside S (some pos) = false := by simp [trackedInside, hTE, hp]
      rw [h1, List.append_nil, hinv, h2, h3]
    · have h3 : trackedInside S (some pos) = isPointInPolygon pos poly := by
        simp [trackedInside, hTE, hp]
      have hpe : polyEvents S prev pos t
          = (if !(trackedInside S prev) && isPointInPolygon pos poly
              then [⟨S.id, .enter, t, pos⟩]
             else if trackedInside S prev && !(isPointInPolygon pos poly)
              then [⟨S.id, .exit, t, pos⟩]
             else []) := by
        rcases prev with _ | p <;> simp [polyEvents, trackedInside, hTE, hp]
      rw [hpe, h3]
      cases hw : trackedInside S prev <;> rw [hw] at hinv <;>
        cases hi : isPointInPolygon pos poly <;>
          simp [hi, altState_snoc, hinv, altStep]

/-! ## Gate-crossing solver (`App.tsx`) -/

/-- `TrackMarker` as consumed by `getCrossingTime` (`App.tsx`).  The
marker's `angleDeg` enters only through its cosine and sine, carried as
the rational parameters `cosAngle`/`sinAngle` (angle 0 is
`cosAngle = 1, sinAngle = 0`; the `?? 0` nullish default of the source
corresponds to that pair). -/
structure TrackMarker where
  x : ℚ
  y : ℚ
  cosAngle : ℚ
  sinAngle : ℚ
deriving DecidableEq, Repr

/-- `segmentIntersection` of `App.tsx` (lines 396-406): 2×2 determinant
method with the `|d| < 1e-9` degeneracy guard and the `[0,1]` parameter
range checks. -/
def segmentIntersection (p1 p2 p3 p4 : Pt) : Option Pt :=
  let d := (p2.x - p1.x) * (p4.y - p3.y) - (p2.y - p1.y) * (p4.x - p3.x)
  if |d| < 1 / 1000000000 then none
  else
    let ua := ((p4.x - p3.x) * (p1.y - p3.y) - (p4.y - p3.y) * (p1.x - p3.x)) / d
    let ub := ((p2.x - p1.x) * (p1.y - p3.y) - (p2.y - p1.y) * (p1.x - p3.x)) / d
    if ua < 0 ∨ ua > 1 ∨ ub < 0 ∨ ub > 1 then none
    else some ⟨p1.x + ua * (p2.x - p1.x), p1.y + ua * (p2.y - p1.y)⟩

/-- `pointSegDist2` of `App.tsx` (lines 408-421). -/
def pointSegDist2 (p a b : Pt) : ℚ :=
  let vx := b.x - a.x
  let vy := b.y - a.y
  let wx := p.x - a.x
  let wy := p.y - a.y
  let c1 := vx * wx + vy * wy
  if c1 ≤ 0 then (p.x - a.x) ^ 2 + (p.y - a.y) ^ 2
  else
    let c2 := vx * vx + vy * vy
    if c2 ≤ c1 then (p.x - b.x) ^ 2 + (p.y - b.y) ^ 2
    else
      let t := c1 / c2
      let projx := a.x + t * vx
      let projy := a.y + t * vy
      (p.x - projx) ^ 2 + (p.y - projy) ^ 2

/-- First endpoint of the gate segment built by `getCrossingTime`:
`(marker.x - dx, marker.y - dy)` with `dx = cos(angle)·gateLen/2`,
`dy = sin(angle)·gateLen/2`, `gateLen = 6.096`. -/
def markerG1 (marker : TrackMarker) : Pt :=
  ⟨marker.x - marker.cosAngle * (6096 / 1000 / 2),
   marker.y - marker.sinAngle * (6096 / 1000 / 2)⟩

/-- Second endpoint of the gate segment built by `getCrossingTime`. -/
def markerG2 (marker : TrackMarker) : Pt :=
  ⟨marker.x + marker.cosAngle * (6096 / 1000 / 2),
   marker.y + marker.sinAngle * (6096 / 1000 / 2)⟩

/-- The crossing-time formula used on a hit: the projection parameter of
the intersection point along the movement segment, guarded by
`len2 = ... || 1`, interpolating the pair's timestamps. -/
def crossingTimeOfHit (s0 s1 : PlaybackSample) (inter : Pt) : ℚ :=
  let segDx := s1.x - s0.x
  let segDy := s1.y - s0.y
  let len2 := if segDx * segDx + segDy * segDy = 0 then 1
              else segDx * segDx + segDy * segDy
  let t := ((inter.x - s0.x) * segDx + (inter.y - s0.y) * segDy) / len2
  s0.time + t * (s1.time - s0.time)

/-- The scan of consecutive sample pairs in `getCrossingTime`
(`App.tsx`, lines 362-382).  The source's `Number.isFinite` coordinate
checks are vacuously true over `ℚ` and are omitted. -/
def crossScan (g1 g2 : Pt) : List PlaybackSample → Option ℚ
  | s0 :: s1 :: rest =>
    match segmentIntersection ⟨s0.x, s0.y⟩ ⟨s1.x, s1.y⟩ g1 g2 with
    | some inter => some (crossingTimeOfHit s0 s1 inter)
    | none => crossScan g1 g2 (s1 :: rest)
  | _ => none

/-- The nearest-sample fallback of `getCrossingTime` (`App.tsx`,
lines 383-393): single pass tracking the best squared distance, starting
from `+Infinity` (so the first sample always replaces the initial
accumulator). -/
def nearestSampleTime (g1 g2 : Pt) (samples : List PlaybackSample) : Option ℚ :=
  (samples.foldl
    (fun (acc : Option (ℚ × ℚ)) s =>
      let dist2 := pointSegDist2 ⟨s.x, s.y⟩ g1 g2
      match acc with
      | none => some (dist2, s.time)
      | some (best, _) => if dist2 < best then some (dist2, s.time) else acc)
    none).map Prod.snd

/-- `getCrossingTime` of `App.tsx` (lines 353-394). -/
def getCrossingTime (samples : List PlaybackSample) (marker : TrackMarker) : Option ℚ :=
  if samples.length = 0 then none
  else
    match crossScan (markerG1 marker) (markerG2 marker) samples with
    | some t => some t
    | none => nearestSampleTime (markerG1 marker) (markerG2 marker) samples

/-! ## Theorems -/

/-- C3: per-field scalar interpolation.  With the effective validity of
an endpoint being its flag defaulted to `true` when absent: both valid
gives the linear blend `v0 + (v1 - v0)·t` with `valid = true`; both
invalid gives `0` with `valid = false`; exactly one valid returns that
endpoint's raw value unchanged with `valid = true`, for every `t`. -/
theorem claim_C3 (v0 v1 t : ℚ) (b0 b1 : Option Bool) :
    (b0.getD true = true → b1.getD true = true →
      interpolateValue v0 v1 t b0 b1 = ⟨v0 + (v1 - v0) * t, true⟩) ∧
    (b0.getD true = false → b1.getD true = false →
      interpolateValue v0 v1 t b0 b1 = ⟨0, false⟩) ∧
    (b0.getD true = false → b1.getD true = true →
      interpolateValue v0 v1 t b0 b1 = ⟨v1, true⟩) ∧
    (b0.getD true = true → b1.getD true = false →
      interpolateValue v0 v1 t b0 b1 = ⟨v0, true⟩) := by
  cases h0 : b0.getD true <;> cases h1 : b1.getD true <;>
    simp [interpolateValue, h0, h1]

/-- Witness for C3: `v0` invalid and `v1 = 42` valid returns `42` with
`valid = true` at `t = 1/2`. -/
theorem claim_C3_witness :
    interpolateValue 0 42 (1/2) (some false) (some true) = ⟨42, true⟩ :=
  (claim_C3 0 42 (1/2) (some false) (some true)).2.2.1 rfl rfl

/-- C2: playback clock boundary policy.  On a playing tick with positive
wall delta whose `newTime = currentTime + (deltaMs/1000)·speed` reaches
or exceeds the (positive) duration: looping wraps `currentTime` to
`newTime % duration` (JavaScript remainder) and stays playing;
non-looping clamps `currentTime` to exactly `duration` and sets
`isPlaying` to `false`. -/
theorem claim_C2 (deltaMs speed : ℚ) (looping : Bool) (duration : ℚ)
    (prev : PlaybackState) (hplay : prev.isPlaying = true) (hdelta : 0 < deltaMs)
    (hdur : 0 < duration)
    (hend : duration ≤ prev.currentTime + deltaMs / 1000 * speed) :
    (looping = true →
      (animate deltaMs speed looping duration prev).currentTime
        = jsMod (prev.currentTime + deltaMs / 1000 * speed) duration ∧
      (animate deltaMs speed looping duration prev).isPlaying = true) ∧
    (looping = false →
      (animate deltaMs speed looping duration prev).currentTime = duration ∧
      (animate deltaMs speed looping duration prev).isPlaying = false) := by
  have hnle : ¬ deltaMs ≤ 0 := not_le.mpr hdelta
  cases looping <;>
    simp [animate, hnle, hplay, hend, ge_iff_le]

/-- Witness for C2: `duration = 10`, `speed = 1`, `currentTime = 9.5`,
tick `deltaMs = 1000`; looping yields `currentTime = 0.5`, non-looping
yields `currentTime = 10` exactly with `isPlaying = false`. -/
theorem claim_C2_witness :
    (animate 1000 1 true 10 ⟨true, 19/2, 1, true⟩).currentTime = 1/2 ∧
    (animate 1000 1 false 10 ⟨true, 19/2, 1, false⟩).currentTime = 10 ∧
    (animate 1000 1 false 10 ⟨true, 19/2, 1, false⟩).isPlaying = false := by
  have h1 := (claim_C2 1000 1 true 10 ⟨true, 19/2, 1, true⟩ rfl (by norm_num)
    (by norm_num) (by norm_num)).1 rfl
  have h2 := (claim_C2 1000 1 false 10 ⟨true, 19/2, 1, false⟩ rfl (by norm_num)
    (by norm_num) (by norm_num)).2 rfl
  refine ⟨?_, h2.1, h2.2⟩
  rw [h1.1]
  norm_num [jsMod, ratTrunc]

/-- C10: a playback-clock tick never touches the `playbackSpeed` and
`looping` fields of the state; it changes at most `currentTime`, plus
`isPlaying` (to `false`) only at a non-looping end-of-run boundary where
`currentTime` is clamped to the duration. -/
theorem claim_C10 (deltaMs speed : ℚ) (looping : Bool) (duration : ℚ)
    (prev : PlaybackState) :
    (animate deltaMs speed looping duration prev).playbackSpeed = prev.playbackSpeed ∧
    (animate deltaMs speed looping duration prev).looping = prev.looping ∧
    ((animate deltaMs speed looping duration prev).isPlaying = prev.isPlaying ∨
      (looping = false ∧
        (animate deltaMs speed looping duration prev).isPlaying = false ∧
        (animate deltaMs speed looping duration prev).currentTime = duration ∧
        duration ≤ prev.currentTime + deltaMs / 1000 * speed)) := by
  simp only [animate]
  split_ifs <;> simp_all [ge_iff_le]

/-- C6 (amended): on the empty sample sequence, interpolation totally
(never throwing) returns a sample whose `time` is the query time, whose
telemetry scalar fields are all `0`, and whose validity record is the
empty record `{}` — every per-field flag is absent, not set to `false`. -/
theorem claim_C6 (t : ℚ) :
    getSampleAtTime [] t =
      { time := t, x := 0, y := 0, speed := 0, heading := 0,
        ax := 0, ay := 0, yaw_rate := 0, total_g := 0, valid := ValidMap.empty } := rfl

/-- Counterexample for C6 as stated: the empty-sequence sample's `speed`
validity flag is absent (`none`), not `false`; under the core's own
default rule (absent means valid) it is even treated as `true`. -/
theorem claim_C6_counterexample :
    (getSampleAtTime [] 5).valid.speed = none ∧
    (getSampleAtTime [] 5).valid.speed ≠ some false ∧
    (getSampleAtTime [] 5).valid.speed.getD true = true := by
  decide

/-- C9: the timing state machine keeps a single pending entry timestamp
and a single active-sector id shared by all sectors.  Any enter
overwrites both; an exit for any sector (found in the sector list, not
necessarily the sector that entered) pairs with the most recent entry
timestamp to append a `SectorTime`; an exit with no pending entry
appends no `SectorTime`. -/
theorem claim_C9 (sectors : List CourseSector) (st : GeoState) (s1 s2 : String)
    (sec : CourseSector) (t1 t2 : ℚ) (p1 p2 : Pt)
    (hfind : sectors.find? (fun T => T.id == s2) = some sec) :
    (handleSectorEntry st s1 t1 p1).entryTime = some t1 ∧
    (handleSectorEntry st s1 t1 p1).activeSectorId = some s1 ∧
    (∃ r : SectorTime,
      (handleSectorExit sectors (handleSectorEntry st s1 t1 p1) s2 t2 p2).sectorTimes
        = st.sectorTimes ++ [r] ∧
      r.sectorId = s2 ∧ r.entryTime = t1 ∧ r.exitTime = t2 ∧ r.duration = t2 - t1) ∧
    ((handleSectorExit sectors (handleSectorEntry st s1 t1 p1) s2 t2 p2).entryTime
        = none) ∧
    (st.entryTime = none →
      (handleSectorExit sectors st s2 t2 p2).sectorTimes = st.sectorTimes) := by
  refine ⟨rfl, rfl, ?_, ?_, ?_⟩
  · simp only [handleSectorExit, handleSectorEntry, hfind]
    exact ⟨_, rfl, rfl, rfl, rfl, rfl⟩
  · simp [handleSectorExit, handleSectorEntry, hfind]
  · intro hnone
    simp [handleSectorExit, hnone]

/-- Witness for C9: an enter on sector `"b"` followed by an exit on
sector `"a"` pairs the two timestamps across sectors. -/
theorem claim_C9_witness :
    (handleSectorEntry resetState "b" 3 ⟨0, 0⟩).entryTime = some 3 ∧
    (handleSectorEntry resetState "b" 3 ⟨0, 0⟩).activeSectorId = some "b" ∧
    (∃ r : SectorTime,
      (handleSectorExit [⟨"a", "A", none, none, none, true, none⟩]
          (handleSectorEntry resetState "b" 3 ⟨0, 0⟩) "a" 7 ⟨1, 1⟩).sectorTimes
        = resetState.sectorTimes ++ [r] ∧
      r.sectorId = "a" ∧ r.entryTime = 3 ∧ r.exitTime = 7 ∧ r.duration = 7 - 3) ∧
    ((handleSectorExit [⟨"a", "A", none, none, none, true, none⟩]
        (handleSectorEntry resetState "b" 3 ⟨0, 0⟩) "a" 7 ⟨1, 1⟩).entryTime = none) ∧
    (resetState.entryTime = none →
      (handleSectorExit [⟨"a", "A", none, none, none, true, none⟩]
          resetState "a" 7 ⟨1, 1⟩).sectorTimes = resetState.sectorTimes) :=
  claim_C9 [⟨"a", "A", none, none, none, true, none⟩] resetState "b" "a"
    ⟨"a", "A", none, none, none, true, none⟩ 3 7 ⟨0, 0⟩ ⟨1, 1⟩ (by decide)

/-- Counterexample for C4 as stated: for headings `a0 = 0` and
`a1 = 180` at `t = 1/2`, the difference wrapped to `[-180, 180)` is
`-180`, so the spec's formula yields `270`; the code keeps the raw
difference `+180` and yields `90`. -/
theorem claim_C4_counterexample :
    specShortestDiff 0 180 = -180 ∧
    specCircularInterp 0 180 (1/2) = 270 ∧
    interpolateAngle 0 180 (1/2) (some true) (some true) = ⟨90, true⟩ ∧
    (90 : ℚ) ≠ 270 := by
  refine ⟨?_, ?_, ?_, by norm_num⟩
  · simp only [specShortestDiff]
    norm_num
  · simp only [specCircularInterp, specShortestDiff, specNormalize]
    norm_num
  · simp only [interpolateAngle]
    norm_num

/-- The two sequential wrap corrections that `interpolateAngle` applies
to the raw difference (`if (diff > 180) diff -= 360; if (diff < -180)
diff += 360`). -/
def wrapDiff (d : ℚ) : ℚ :=
  let d1 := if d > 180 then d - 360 else d
  if d1 < -180 then d1 + 360 else d1

/-- The two sequential renormalization corrections that
`interpolateAngle` applies to the blended result (`if (result < 0)
result += 360; if (result >= 360) result -= 360`). -/
def normalizeResult (r : ℚ) : ℚ :=
  let r1 := if r < 0 then r + 360 else r
  if r1 ≥ 360 then r1 - 360 else r1

theorem interpolateAngle_tt (a0 a1 t : ℚ) :
    interpolateAngle a0 a1 t (some true) (some true) =
      ⟨normalizeResult (a0 + wrapDiff (a1 - a0) * t), true⟩ := rfl

theorem specNormalize_of_neg {x : ℚ} (h1 : -360 ≤ x) (h2 : x < 0) :
    specNormalize x = x + 360 := by
  have hf : ⌊x / 360⌋ = -1 := by
    rw [Int.floor_eq_iff]
    push_cast
    constructor
    · rw [le_div_iff (by norm_num : (0:ℚ) < 360)]
      linarith
    · rw [div_lt_iff (by norm_num : (0:ℚ) < 360)]
      linarith
  rw [specNormalize, hf]
  push_cast
  ring

theorem specNormalize_of_mem {x : ℚ} (h1 : 0 ≤ x) (h2 : x < 360) :
    specNormalize x = x := by
  have hf : ⌊x / 360⌋ = 0 := by
    rw [Int.floor_eq_iff]
    push_cast
    constructor
    · positivity
    · rw [div_lt_iff (by norm_num : (0:ℚ) < 360)]
      linarith
  rw [specNormalize, hf]
  push_cast
  ring

theorem specNormalize_of_ge {x : ℚ} (h1 : 360 ≤ x) (h2 : x < 720) :
    specNormalize x = x - 360 := by
  have hf : ⌊x / 360⌋ = 1 := by
    rw [Int.floor_eq_iff]
    push_cast
    constructor
    · rw [le_div_iff (by norm_num : (0:ℚ) < 360)]
      linarith
    · rw [div_lt_iff (by norm_num : (0:ℚ) < 360)]
      linarith
  rw [specNormalize, hf]
  push_cast
  ring

theorem normalizeResult_eq_specNormalize {x : ℚ} (h1 : -360 ≤ x) (h2 : x < 720) :
    normalizeResult x = specNormalize x := by
  simp only [normalizeResult]
  split_ifs with ha hb hc
  · exfalso
    linarith
  · rw [specNormalize_of_neg h1 ha]
  · rw [specNormalize_of_ge (by linarith) h2]
  · rw [specNormalize_of_mem (by linarith) (by linarith)]

theorem normalizeResult_range {x : ℚ} (h1 : -360 ≤ x) (h2 : x < 720) :
    0 ≤ normalizeResult x ∧ normalizeResult x < 360 := by
  simp only [normalizeResult]
  split_ifs <;> constructor <;> linarith

theorem specShortestDiff_of_mem {a0 a1 : ℚ} (h1 : -180 ≤ a1 - a0) (h2 : a1 - a0 < 180) :
    specShortestDiff a0 a1 = a1 - a0 := by
  have hf : ⌊(a1 - a0 + 180) / 360⌋ = 0 := by
    rw [Int.floor_eq_iff]
    push_cast
    constructor
    · rw [le_div_iff (by norm_num : (0:ℚ) < 360)]
      linarith
    · rw [div_lt_iff (by norm_num : (0:ℚ) < 360)]
      linarith
  rw [specShortestDiff, hf]
  push_cast
  ring

theorem specShortestDiff_of_hi {a0 a1 : ℚ} (h1 : 180 ≤ a1 - a0) (h2 : a1 - a0 < 540) :
    specShortestDiff a0 a1 = a1 - a0 - 360 := by
  have hf : ⌊(a1 - a0 + 180) / 360⌋ = 1 := by
    rw [Int.floor_eq_iff]
    push_cast
    constructor
    · rw [le_div_iff (by norm_num : (0:ℚ) < 360)]
      linarith
    · rw [div_lt_iff (by norm_num : (0:ℚ) < 360)]
      linarith
  rw [specShortestDiff, hf]
  push_cast
  ring

theorem specShortestDiff_of_lo {a0 a1 : ℚ} (h1 : -540 ≤ a1 - a0) (h2 : a1 - a0 < -180) :
    specShortestDiff a0 a1 = a1 - a0 + 360 := by
  have hf : ⌊(a1 - a0 + 180) / 360⌋ = -1 := by
    rw [Int.floor_eq_iff]
    push_cast
    constructor
    · rw [le_div_iff (by norm_num : (0:ℚ) < 360)]
      linarith
    · rw [div_lt_iff (by norm_num : (0:ℚ) < 360)]
      linarith
  rw [specShortestDiff, hf]
  push_cast
  ring

theorem wrapDiff_bounds {d : ℚ} (h1 : -360 < d) (h2 : d < 360) :
    -180 ≤ wrapDiff d ∧ wrapDiff d ≤ 180 := by
  simp only [wrapDiff]
  split_ifs <;> constructor <;> linarith

theorem wrapDiff_eq_specShortestDiff {a0 a1 : ℚ} (h1 : -360 < a1 - a0)
    (h2 : a1 - a0 < 360) (hne : a1 - a0 ≠ 180) :
    wrapDiff (a1 - a0) = specShortestDiff a0 a1 := by
  simp only [wrapDiff]
  split_ifs with ha hb hc
  · exfalso
    linarith
  · rw [specShortestDiff_of_hi (by linarith) (by linarith)]
  · rw [specShortestDiff_of_lo (by linarith) hc]
  · rw [specShortestDiff_of_mem (by linarith) (lt_of_le_of_ne (not_lt.mp ha) hne)]

theorem wrapDiff_at_tie : wrapDiff 180 = 180 := by
  simp only [wrapDiff]
  norm_num

/-- C4 (amended): heading interpolation is circular.  For valid headings
`a0, a1 ∈ [0, 360)` and `t ∈ [0, 1]` the result is valid, lies in
`[0, 360)`, and equals the spec's formula — blend along the signed
shortest angular difference wrapped to `[-180, 180)`, renormalized into
`[0, 360)` — in every case except a raw difference of exactly `+180`,
which the code keeps as `+180` instead of wrapping to `-180` (so the
wrap interval realized by the code is `[-180, 180]`, the sign of a
`±180` difference being preserved).  When exactly one endpoint is valid
the result is that endpoint's raw angle with `valid = true`. -/
theorem claim_C4 (a0 a1 t : ℚ) (h00 : 0 ≤ a0) (h01 : a0 < 360) (h10 : 0 ≤ a1)
    (h11 : a1 < 360) (ht0 : 0 ≤ t) (ht1 : t ≤ 1) :
    (interpolateAngle a0 a1 t (some true) (some true)).valid = true ∧
    0 ≤ (interpolateAngle a0 a1 t (some true) (some true)).value ∧
    (interpolateAngle a0 a1 t (some true) (some true)).value < 360 ∧
    (a1 - a0 = 180 →
      (interpolateAngle a0 a1 t (some true) (some true)).value
        = specNormalize (a0 + 180 * t)) ∧
    (a1 - a0 ≠ 180 →
      (interpolateAngle a0 a1 t (some true) (some true)).value
        = specCircularInterp a0 a1 t) ∧
    interpolateAngle a0 a1 t (some false) (some true) = ⟨a1, true⟩ ∧
    interpolateAngle a0 a1 t (some true) (some false) = ⟨a0, true⟩ := by
  have hd1 : -360 < a1 - a0 := by linarith
  have hd2 : a1 - a0 < 360 := by linarith
  obtain ⟨hw1, hw2⟩ := wrapDiff_bounds hd1 hd2
  have hdt1 : -180 ≤ wrapDiff (a1 - a0) * t := by nlinarith
  have hdt2 : wrapDiff (a1 - a0) * t ≤ 180 := by nlinarith
  have hx1 : -360 ≤ a0 + wrapDiff (a1 - a0) * t := by linarith
  have hx2 : a0 + wrapDiff (a1 - a0) * t < 720 := by linarith
  obtain ⟨hr1, hr2⟩ := normalizeResult_range hx1 hx2
  rw [interpolateAngle_tt]
  refine ⟨rfl, hr1, hr2, ?_, ?_, by simp [interpolateAngle], by simp [interpolateAngle]⟩
  · intro htie
    rw [htie, wrapDiff_at_tie,
      normalizeResult_eq_specNormalize (by rw [htie, wrapDiff_at_tie] at hx1; exact hx1)
        (by rw [htie, wrapDiff_at_tie] at hx2; exact hx2)]
  · intro hne
    rw [specCircularInterp, ← wrapDiff_eq_specShortestDiff hd1 hd2 hne,
      normalizeResult_eq_specNormalize hx1 hx2]

/-- Witness for C4: interpolating heading `350°` to `10°` at `t = 1/2`
yields `0°` (not `180°`), agreeing with the spec's circular formula. -/
theorem claim_C4_witness :
    (interpolateAngle 350 10 (1/2) (some true) (some true)).valid = true ∧
    (interpolateAngle 350 10 (1/2) (some true) (some true)).value = 0 ∧
    specCircularInterp 350 10 (1/2) = 0 := by
  obtain ⟨hvld, -, -, -, hspec, -, -⟩ :=
    claim_C4 350 10 (1/2) (by norm_num) (by norm_num) (by norm_num) (by norm_num)
      (by norm_num) (by norm_num)
  have hval := hspec (by norm_num)
  have hcomp : specCircularInterp 350 10 (1/2) = 0 := by
    rw [specCircularInterp, specShortestDiff_of_lo (by norm_num) (by norm_num)]
    norm_num
    rw [specNormalize_of_ge (by norm_num) (by norm_num)]
    norm_num
  exact ⟨hvld, by rw [hval, hcomp], hcomp⟩

/-- A concrete polygon-only sector: the square
`[(0,0), (10,0), (10,10), (0,10)]` with timing enabled. -/
def squareSector : CourseSector :=
  ⟨"s1", "Sector 1", some ⟨[⟨0, 0⟩, ⟨10, 0⟩, ⟨10, 10⟩, ⟨0, 10⟩]⟩, none, none, true, none⟩

/-- A concrete sector with only an exit gate: a vertical gate segment
through the origin (rotation 0, width 2), timing enabled. -/
def exitGateSector : CourseSector :=
  ⟨"g1", "Gate sector", none, none, some ⟨⟨0, 0⟩, 2, 1, 0⟩, true, none⟩

/-- C1 (amended): for a timing-enabled polygon-only sector (the unique
sector of its id in the list), one position update appends to that
sector's event log exactly: an enter iff was-outside ∧ is-inside, an
exit iff was-inside ∧ is-outside, when a previous position exists; and
when there is no previous position, never an exit, but an enter iff the
current position is inside (the previous classification defaults to
outside rather than suppressing the transition). -/
theorem claim_C1 (S : CourseSector) (poly : SectorPolygon) (sectors : List CourseSector)
    (hfilt : sectors.filter (fun T => T.id == S.id) = [S])
    (hg1 : S.entryGate = none) (hg2 : S.exitGate = none)
    (hT : S.timingEnabled = true) (hp : S.polygon = some poly)
    (st : GeoState) (pos : Pt) (t : ℚ) :
    sectorLog S.id (updatePosition sectors st pos t).events
      = sectorLog S.id st.events ++ polyEvents S st.previousPosition pos t ∧
    (∀ p, st.previousPosition = some p →
      (polyEvents S (some p) pos t = [⟨S.id, .enter, t, pos⟩] ↔
        isPointInPolygon p poly = false ∧ isPointInPolygon pos poly = true) ∧
      (polyEvents S (some p) pos t = [⟨S.id, .exit, t, pos⟩] ↔
        isPointInPolygon p poly = true ∧ isPointInPolygon pos poly = false) ∧
      (isPointInPolygon p poly = isPointInPolygon pos poly →
        polyEvents S (some p) pos t = [])) ∧
    (st.previousPosition = none →
      polyEvents S none pos t
        = if isPointInPolygon pos poly then [⟨S.id, .enter, t, pos⟩] else []) := by
  refine ⟨updatePosition_log S sectors hfilt hg1 hg2 st pos t, ?_, ?_⟩
  · intro p _
    refine ⟨?_, ?_, ?_⟩
    · cases hw : isPointInPolygon p poly <;>
        cases hi : isPointInPolygon pos poly <;>
          simp [polyEvents, hT, hp, hw, hi]
    · cases hw : isPointInPolygon p poly <;>
        cases hi : isPointInPolygon pos poly <;>
          simp [polyEvents, hT, hp, hw, hi]
    · intro heq
      cases hw : isPointInPolygon p poly <;> rw [hw] at heq <;>
        simp [polyEvents, hT, hp, hw, ← heq]
  · intro _
    cases hi : isPointInPolygon pos poly <;>
      simp [polyEvents, hT, hp, hi]

/-- Counterexample for C1 as stated: from the reset state (no previous
position), a first update inside the square polygon emits an enter
transition, while the claim says no previous position means no
transition at all. -/
theorem claim_C1_counterexample :
    resetState.previousPosition = none ∧
    (updatePosition [squareSector] resetState ⟨5, 5⟩ 0).events
      = [⟨"s1", .enter, 0, ⟨5, 5⟩⟩] := by
  refine ⟨rfl, ?_⟩
  norm_num [updatePosition, processSector, handleSectorEntry, resetState, squareSector,
    isPointInPolygon, List.range_succ]

/-- Witness for C1: the amended statement instantiated at the square
sector, the reset state and the position `(5,5)`. -/
theorem claim_C1_witness :
    (sectorLog "s1" (updatePosition [squareSector] resetState ⟨5, 5⟩ 0).events
      = sectorLog "s1" resetState.events
          ++ polyEvents squareSector resetState.previousPosition ⟨5, 5⟩ 0) ∧
    (resetState.previousPosition = none →
      polyEvents squareSector none ⟨5, 5⟩ 0
        = if isPointInPolygon ⟨5, 5⟩ ⟨[⟨0, 0⟩, ⟨10, 0⟩, ⟨10, 10⟩, ⟨0, 10⟩]⟩
            then [⟨"s1", .enter, 0, ⟨5, 5⟩⟩] else []) := by
  obtain ⟨h1, -, h3⟩ := claim_C1 squareSector ⟨[⟨0, 0⟩, ⟨10, 0⟩, ⟨10, 10⟩, ⟨0, 10⟩]⟩
    [squareSector] (by simp) rfl rfl rfl rfl resetState ⟨5, 5⟩ 0
  exact ⟨h1, h3⟩

/-- C8 (amended): for a timing-enabled polygon-only sector (the unique
sector of its id in the list), over any update sequence from the reset
state, the event log restricted to that sector strictly alternates
enter, exit, enter, …: the first event is an enter, equal events never
repeat consecutively, and no exit occurs without a pending enter.  (With
gate geofences the property fails; see the counterexample.) -/
theorem claim_C8 (S : CourseSector) (sectors : List CourseSector)
    (hfilt : sectors.filter (fun T => T.id == S.id) = [S])
    (hg1 : S.entryGate = none) (hg2 : S.exitGate = none)
    (updates : List (Pt × ℚ)) :
    logAlternates (sectorLog S.id (runUpdates sectors updates resetState).events) := by
  suffices h : ∀ st, altState (sectorLog S.id st.events)
      = some (!trackedInside S st.previousPosition) →
      altState (sectorLog S.id (runUpdates sectors updates st).events)
        = some (!trackedInside S (runUpdates sectors updates st).previousPosition) by
    have h0 : altState (sectorLog S.id resetState.events)
        = some (!trackedInside S resetState.previousPosition) := by
      simp [resetState, sectorLog, altState, trackedInside]
    have hfin := h resetState h0
    rw [logAlternates, hfin]
    rfl
  induction updates with
  | nil =>
    intro st h
    simpa [runUpdates] using h
  | cons u rest ih =>
    intro st h
    simp only [runUpdates, List.foldl_cons] at ih ⊢
    apply ih
    rw [updatePosition_log S sectors hfilt hg1 hg2, updatePosition_prevPos]
    exact altState_after_update S st.previousPosition u.1 u.2 _ h

/-- Counterexample for C8 as stated: a sector with only an exit gate.
Crossing the gate once produces an event log whose first (and only)
event for the sector is an exit, so the log does not alternate starting
with an enter. -/
theorem claim_C8_counterexample :
    (runUpdates [exitGateSector] [(⟨-1, 0⟩, 0), (⟨1, 0⟩, 1)] resetState).events
      = [⟨"g1", .exit, 1, ⟨1, 0⟩⟩] ∧
    ¬ logAlternates (sectorLog "g1"
        (runUpdates [exitGateSector] [(⟨-1, 0⟩, 0), (⟨1, 0⟩, 1)] resetState).events) := by
  have hev : (runUpdates [exitGateSector] [(⟨-1, 0⟩, 0), (⟨1, 0⟩, 1)] resetState).events
      = [⟨"g1", .exit, 1, ⟨1, 0⟩⟩] := by
    norm_num [runUpdates, updatePosition, processSector, handleSectorExit, resetState,
      exitGateSector, doesLineCrossGate, doLineSegmentsIntersect, direction, onSegment]
  refine ⟨hev, ?_⟩
  rw [hev]
  simp [logAlternates, sectorLog, altState, altStep]

/-- Witness for C8: the alternation property instantiated at the square
sector and a three-update trace that enters and then leaves it. -/
theorem claim_C8_witness :
    logAlternates (sectorLog "s1"
      (runUpdates [squareSector] [(⟨5, -1⟩, 0), (⟨5, 5⟩, 1), (⟨5, 11⟩, 2)]
        resetState).events) :=
  claim_C8 squareSector [squareSector] (by simp) rfl rfl
    [(⟨5, -1⟩, 0), (⟨5, 5⟩, 1), (⟨5, 11⟩, 2)]

/-! ## Bracket search characterization and interpolation idempotence -/

theorem findFirstIdx_range' (p : Nat → Bool) :
    ∀ (n s m : Nat), s ≤ m → m < s + n → p m = true →
      (∀ j, s ≤ j → j < m → p j = false) →
      findFirstIdx p (List.range' s n) = some m := by
  intro n
  induction n with
  | zero =>
    intro s m h1 h2 _ _
    omega
  | succ k ih =>
    intro s m h1 h2 hm hprev
    rw [List.range'_succ]
    rcases Nat.eq_or_lt_of_le h1 with heq | hlt
    · subst heq
      simp [findFirstIdx, hm]
    · have hps : p s = false := hprev s le_rfl hlt
      simp only [findFirstIdx, hps, Bool.false_eq_true, if_false]
      exact ih (s + 1) m hlt (by omega) hm (fun j hj1 hj2 => hprev j (by omega) hj2)

theorem sorted_getD_lt {samples : List PlaybackSample}
    (hsort : samples.Pairwise (fun a b => a.time < b.time))
    {i j : Nat} (hij : i < j) (hj : j < samples.length) :
    (samples.getD i default).time < (samples.getD j default).time := by
  rw [List.getD_eq_getElem _ _ (lt_trans hij hj), List.getD_eq_getElem _ _ hj]
  exact List.pairwise_iff_getElem.mp hsort i j (lt_trans hij hj) hj hij

theorem getSampleAtTime_some_le {samples : List PlaybackSample} {time : ℚ} {j : Nat}
    (hn0 : ¬ samples.length = 0)
    (hF : findFirstIdx (bracketCond samples time) (List.range (samples.length - 1))
      = some j)
    (hle : time ≤ (samples.getD j default).time) :
    getSampleAtTime samples time = samples.getD j default := by
  have hle' : time ≤ (samples[j]?.getD default).time := by
    rwa [← List.getD_eq_getElem?_getD]
  simp only [getSampleAtTime, hF, if_neg hn0]
  simp [hle']

theorem getSampleAtTime_some_right {samples : List PlaybackSample} {time : ℚ} {j : Nat}
    (hn0 : ¬ samples.length = 0)
    (hF : findFirstIdx (bracketCond samples time) (List.range (samples.length - 1))
      = some j)
    (hgt : (samples.getD j default).time < time)
    (hge : (samples.getD (j + 1) default).time ≤ time) :
    getSampleAtTime samples time = samples.getD (j + 1) default := by
  have hgt' : (samples[j]?.getD default).time < time := by
    rwa [← List.getD_eq_getElem?_getD]
  have hge' : (samples[j + 1]?.getD default).time ≤ time := by
    rwa [← List.getD_eq_getElem?_getD]
  simp only [getSampleAtTime, hF, if_neg hn0]
  simp [not_le.mpr hgt', ge_iff_le, hge']

theorem getSampleAtTime_none_le {samples : List PlaybackSample} {time : ℚ}
    (hn0 : ¬ samples.length = 0)
    (hF : findFirstIdx (bracketCond samples time) (List.range (samples.length - 1))
      = none)
    (hle : time ≤ (samples.getD 0 default).time) :
    getSampleAtTime samples time = samples.getD 0 default := by
  have hle' : time ≤ (samples[0]?.getD default).time := by
    rwa [← List.getD_eq_getElem?_getD]
  simp only [getSampleAtTime, hF, if_neg hn0]
  simp [hle']

/-- C5: interpolation idempotence.  On a strictly time-sorted sample
sequence, querying `getSampleAtTime` at the exact time of any sample of
the sequence returns that sample itself — equal in every scalar field
and every per-field validity flag. -/
theorem claim_C5 (samples : List PlaybackSample)
    (hsort : samples.Pairwise (fun a b => a.time < b.time))
    (s : PlaybackSample) (hmem : s ∈ samples) :
    getSampleAtTime samples s.time = s := by
  obtain ⟨k, hk, rfl⟩ := List.mem_iff_getElem.mp hmem
  have hn0 : ¬ samples.length = 0 := by omega
  have hgetD : samples.getD k default = samples[k] := List.getD_eq_getElem _ _ hk
  rcases k with _ | j
  · by_cases hlen1 : samples.length = 1
    · have hF : findFirstIdx (bracketCond samples samples[0].time)
          (List.range (samples.length - 1)) = none := by
        rw [hlen1]
        rfl
      rw [getSampleAtTime_none_le hn0 hF (le_of_eq (by rw [hgetD])), hgetD]
    · have hlen2 : 2 ≤ samples.length := by omega
      have hcond : bracketCond samples samples[0].time 0 = true := by
        simp only [bracketCond, Bool.and_eq_true, decide_eq_true_eq]
        refine ⟨le_of_eq (by rw [hgetD]), ?_⟩
        rw [← hgetD]
        exact le_of_lt (sorted_getD_lt hsort (by omega) (by omega))
      have hF : findFirstIdx (bracketCond samples samples[0].time)
          (List.range (samples.length - 1)) = some 0 := by
        rw [List.range_eq_range']
        exact findFirstIdx_range' _ (samples.length - 1) 0 0 le_rfl (by omega) hcond
          (fun i _ hi0 => absurd hi0 (Nat.not_lt_zero i))
      rw [getSampleAtTime_some_le hn0 hF (le_of_eq (by rw [hgetD])), hgetD]
  · have hgetDj : samples.getD j default = samples[j] :=
      List.getD_eq_getElem _ _ (by omega)
    have hcond : bracketCond samples samples[j + 1].time j = true := by
      simp only [bracketCond, Bool.and_eq_true, decide_eq_true_eq]
      exact ⟨le_of_lt (by rw [← hgetD]; exact sorted_getD_lt hsort (by omega) hk),
        le_of_eq (by rw [hgetD])⟩
    have hF : findFirstIdx (bracketCond samples samples[j + 1].time)
        (List.range (samples.length - 1)) = some j := by
      rw [List.range_eq_range']
      refine findFirstIdx_range' _ (samples.length - 1) 0 j (by omega) (by omega) hcond ?_
      intro i _ hij
      have hlt2 : (samples.getD (i + 1) default).time < samples[j + 1].time := by
        rw [← hgetD]
        exact sorted_getD_lt hsort (by omega) hk
      simp [bracketCond, not_le.mpr hlt2]
      exact fun _ => by rwa [← List.getD_eq_getElem?_getD]
    rw [getSampleAtTime_some_right hn0 hF
      (by rw [← hgetD]; exact sorted_getD_lt hsort (Nat.lt_succ_self j) hk)
      (le_of_eq (by rw [hgetD])), hgetD]

/-- A sample with the given time and position, zero telemetry, and no
validity flags set. -/
def mkSample (t x y : ℚ) : PlaybackSample :=
  ⟨t, x, y, 0, 0, 0, 0, 0, 0, ValidMap.empty⟩

/-- Witness for C5: on a concrete strictly sorted three-sample sequence,
querying at the middle sample's time returns the middle sample. -/
theorem claim_C5_witness :
    getSampleAtTime [mkSample 0 1 2, mkSample 1 3 4, mkSample 2 5 6]
      (mkSample 1 3 4).time = mkSample 1 3 4 := by
  apply claim_C5
  · norm_num [List.pairwise_cons, mkSample]
  · exact List.mem_cons_of_mem _ (List.mem_cons_self _ _)

/-! ## Gate-crossing solver: first-hit characterization -/

theorem crossScan_cons2 (g1 g2 : Pt) (s0 s1 : PlaybackSample)
    (rest : List PlaybackSample) :
    crossScan g1 g2 (s0 :: s1 :: rest)
      = match segmentIntersection ⟨s0.x, s0.y⟩ ⟨s1.x, s1.y⟩ g1 g2 with
        | some inter => some (crossingTimeOfHit s0 s1 inter)
        | none => crossScan g1 g2 (s1 :: rest) := rfl

theorem crossScan_first (g1 g2 : Pt) :
    ∀ (i : Nat) (samples : List PlaybackSample),
      i + 1 < samples.length →
      (∀ j, j < i →
        segmentIntersection
          ⟨(samples.getD j default).x, (samples.getD j default).y⟩
          ⟨(samples.getD (j + 1) default).x, (samples.getD (j + 1) default).y⟩
          g1 g2 = none) →
      ∀ inter,
        segmentIntersection
          ⟨(samples.getD i default).x, (samples.getD i default).y⟩
          ⟨(samples.getD (i + 1) default).x, (samples.getD (i + 1) default).y⟩
          g1 g2 = some inter →
      crossScan g1 g2 samples
        = some (crossingTimeOfHit (samples.getD i default)
            (samples.getD (i + 1) default) inter) := by
  intro i
  induction i with
  | zero =>
    intro samples hlen _ inter hit
    rcases samples with _ | ⟨s0, samples1⟩
    · simp at hlen
    rcases samples1 with _ | ⟨s1, rest⟩
    · simp at hlen
    simp only [List.getD_cons_zero, List.getD_cons_succ] at hit ⊢
    rw [crossScan_cons2, hit]
  | succ j ih =>
    intro samples hlen hprev inter hit
    rcases samples with _ | ⟨s0, samples1⟩
    · simp at hlen
    rcases samples1 with _ | ⟨s1, rest⟩
    · simp at hlen
    have h0 : segmentIntersection ⟨s0.x, s0.y⟩ ⟨s1.x, s1.y⟩ g1 g2 = none := by
      have := hprev 0 (Nat.succ_pos j)
      simpa using this
    simp only [List.getD_cons_succ] at hit ⊢
    rw [crossScan_cons2, h0]
    exact ih (s1 :: rest) (by simpa using hlen)
      (fun m hm => by simpa using hprev (m + 1) (by omega)) inter hit

/-- C7: the gate crossing solver scans consecutive sample pairs in
order; if some pair's movement segment intersects the gate segment and
every earlier pair's does not, the result is
`s0.time + t·(s1.time − s0.time)` for that first hit, where `t` is the
intersection point's projection parameter along the movement segment
(the `crossingTimeOfHit` formula). -/
theorem claim_C7 (samples : List PlaybackSample) (marker : TrackMarker) (i : Nat)
    (inter : Pt) (hlen : i + 1 < samples.length)
    (hfirst : ∀ j, j < i →
      segmentIntersection
        ⟨(samples.getD j default).x, (samples.getD j default).y⟩
        ⟨(samples.getD (j + 1) default).x, (samples.getD (j + 1) default).y⟩
        (markerG1 marker) (markerG2 marker) = none)
    (hit : segmentIntersection
        ⟨(samples.getD i default).x, (samples.getD i default).y⟩
        ⟨(samples.getD (i + 1) default).x, (samples.getD (i + 1) default).y⟩
        (markerG1 marker) (markerG2 marker) = some inter) :
    getCrossingTime samples marker
      = some (crossingTimeOfHit (samples.getD i default)
          (samples.getD (i + 1) default) inter) := by
  have hn0 : ¬ samples.length = 0 := by omega
  have hscan := crossScan_first (markerG1 marker) (markerG2 marker) i samples hlen
    hfirst inter hit
  simp only [getCrossingTime, if_neg hn0, hscan]

/-- Witness for C7: a gate at the origin with rotation 0 and the
movement segment `(-1,-5) → (1,5)` over times `0 → 1` reports the
crossing at time `1/2`, the segment's `x = 0` crossing parameter. -/
theorem claim_C7_witness :
    getCrossingTime [mkSample 0 (-1) (-5), mkSample 1 1 5] ⟨0, 0, 1, 0⟩
      = some (1/2) := by
  have hit : segmentIntersection
      ⟨(([mkSample 0 (-1) (-5), mkSample 1 1 5].getD 0 default)).x,
       (([mkSample 0 (-1) (-5), mkSample 1 1 5].getD 0 default)).y⟩
      ⟨(([mkSample 0 (-1) (-5), mkSample 1 1 5].getD 1 default)).x,
       (([mkSample 0 (-1) (-5), mkSample 1 1 5].getD 1 default)).y⟩
      (markerG1 ⟨0, 0, 1, 0⟩) (markerG2 ⟨0, 0, 1, 0⟩) = some ⟨0, 0⟩ := by
    norm_num [segmentIntersection, markerG1, markerG2, mkSample]
    intro habs
    rw [abs_lt] at habs
    norm_num at habs
  have h := claim_C7 [mkSample 0 (-1) (-5), mkSample 1 1 5] ⟨0, 0, 1, 0⟩ 0 ⟨0, 0⟩
    (by norm_num) (fun j hj => absurd hj (Nat.not_lt_zero j)) hit
  rw [h]
  norm_num [crossingTimeOfHit, mkSample]

end Telemetry
